import Mathlib

/-!
Verification of the DeviceStatsReporter runtime against its specification.

The Rust sources under `src/` are shallowly embedded below: pure functions
become Lean functions, the stateful scheduler loop becomes a trace-producing
function over an explicit environment, machine integers (`u64`) become `Nat`
with explicit wrap-around where overflow matters, and fallible operations
return `Except`/`Option`.
-/

namespace DeviceStats

/-! ## Common definitions (src/lib/common.rs) -/

/-- `RuntimeMode` from common.rs: `Continuous` or `Single`. -/
inductive RuntimeMode
| Continuous
| Single
deriving DecidableEq

/-- `MINUTES_MULTIPLIER: u64 = 60` from common.rs. -/
def MINUTES_MULTIPLIER : Nat := 60

/-- The two error structs of common.rs (`IllegalArgumentError`, `RuntimeError`),
each carrying its `details` string.  The original boxes them into
`Box<dyn Error>`; here they form one closed sum. -/
inductive AppError
| illegalArgument (details : String)
| runtimeError (details : String)
deriving DecidableEq

/-- The `Display` impls of common.rs. -/
def AppError.display : AppError → String
| .illegalArgument d => "An illegal argument was encountered. Reason: " ++ d
| .runtimeError d => "An error was encountered during runtime. Reason: " ++ d

/-- The derived `Debug` rendering used by `main`'s `eprintln!("... {:?}", e)`. -/
def AppError.debugFmt : AppError → String
| .illegalArgument d => "IllegalArgumentError \x7b details: \"" ++ d ++ "\" \x7d"
| .runtimeError d => "RuntimeError \x7b details: \"" ++ d ++ "\" \x7d"

/-! ## Configuration (src/lib/config.rs) -/

/-- `RunnerConfig` from config.rs. `check_interval` is a `u64`. -/
structure RunnerConfig where
  device_name : String
  server_address : String
  topic : String
  runtime_mode : RuntimeMode
  check_interval : Nat
deriving DecidableEq

def DEFAULT_SERVER_ADDRESS : String := "tcp://localhost:1883"

def DEFAULT_TOPIC : String := "Device_Status"

def SINGLE_RUNTIME_MODE : String := "Single"

def CONTINUOUS_RUNTIME_MODE : String := "Continuous"

def DEFAULT_CHECK_INTERVAL : Nat := 1

def MINIMUM_CHECK_INTERVAL : Nat := DEFAULT_CHECK_INTERVAL

def MAXIMUM_CHECK_INTERVAL : Nat := 240

/-- Result of `settings.get::<u64>(CHECK_INTERVAL_KEY)` in load_config.  The
config crate stores integers as `i64`; `value` carries that raw integer.
`absent` is `ConfigError::NotFound`, `badValue` any other deserialization
error (e.g. `invalid type: string "FIVE"`, per the repository's own test). -/
inductive IntervalSetting
| absent
| badValue (msg : String)
| value (v : Int)
deriving DecidableEq

/-- The merged settings file as seen through the `settings.get_str`/`get`
calls of `load_config`: for each key, `none` models any failed `get_str`
(the code ignores which error it was). -/
structure Settings where
  device_name : Option String
  server_address : Option String
  topic : Option String
  runtime_mode : Option String
  check_interval : IntervalSetting
deriving DecidableEq

/-- Reinterpretation of the config crate's raw `i64` as the `u64` that
`settings.get::<u64>` yields: the value mod 2^64.  The repository's
`load_negative_check_interval` test observes the range error (not a type
error) for a negative interval, which matches this wrap-around reading. -/
def toU64 (v : Int) : Nat := (v % (2 ^ 64)).toNat

/-- `load_config` from config.rs.  `freshId` stands for the
`Uuid::new_v4().to_string()` default device name; `source` is `none` when no
config path was given, `some (.error e)` when `settings.merge` failed, and
`some (.ok s)` for a successfully merged settings file. -/
def load_config (freshId : String) (source : Option (Except String Settings)) :
    Except AppError RunnerConfig :=
  let dft : RunnerConfig :=
    { device_name := freshId
      server_address := DEFAULT_SERVER_ADDRESS
      topic := DEFAULT_TOPIC
      runtime_mode := RuntimeMode.Single
      check_interval := DEFAULT_CHECK_INTERVAL }
  match source with
  | none => Except.ok dft
  | some (Except.error e) => Except.error (AppError.runtimeError e)
  | some (Except.ok settings) =>
    let cfg : RunnerConfig :=
      { dft with
        device_name := settings.device_name.getD dft.device_name
        server_address := settings.server_address.getD dft.server_address
        topic := settings.topic.getD dft.topic }
    match settings.runtime_mode with
    | none => Except.ok cfg
    | some mode =>
      if mode = CONTINUOUS_RUNTIME_MODE then
        let cfg := { cfg with runtime_mode := RuntimeMode.Continuous }
        match settings.check_interval with
        | IntervalSetting.value v =>
          let ci := toU64 v
          if MINIMUM_CHECK_INTERVAL ≤ ci ∧ ci ≤ MAXIMUM_CHECK_INTERVAL then
            Except.ok { cfg with check_interval := ci }
          else
            Except.error (AppError.illegalArgument
              "Check interval must be between 1 and 240")
        | IntervalSetting.absent => Except.ok cfg
        | IntervalSetting.badValue msg =>
          Except.error (AppError.illegalArgument msg)
      else if mode = SINGLE_RUNTIME_MODE then
        Except.ok { cfg with runtime_mode := RuntimeMode.Single }
      else
        Except.error (AppError.illegalArgument
          ("Unexpected runtime mode '" ++ mode ++ "'"))

/-! ## Report data (src/lib/report.rs)

Strings that flow into the JSON serializer are embedded as `List Char` so the
character-level escaping of the codec can be reasoned about directly.  The
`f32` field `CPUReport.usage` is represented by the decimal token that
`serde_json` renders for it (finite `f32` values have a unique shortest
round-trip rendering, so the token determines the value). -/

structure DiskReport where
  name : List Char
  disk_used : Nat
  disk_capacity : Nat
deriving DecidableEq

structure CPUReport where
  name : List Char
  brand : List Char
  vendor_id : List Char
  frequency : Nat
  usage : List Char
deriving DecidableEq

structure MemoryReport where
  memory_used : Nat
  memory_capacity : Nat
deriving DecidableEq

structure SystemReport where
  disks : List DiskReport
  cpus : List CPUReport
  memory : MemoryReport
deriving DecidableEq

/-- `ReportMessage` from report.rs (the envelope actually serialized). -/
structure ReportMessage where
  device_id : List Char
  message_id : List Char
  timestamp : Nat
  report : SystemReport
deriving DecidableEq

/-! ## Report generation (src/lib/runner.rs, `generate_report`) -/

/-- One disk as exposed by the sysinfo provider: `get_name().to_str()` is
`none` when the OS name is not valid UTF-8; `get_total_space` and
`get_available_space` are `u64`. -/
structure SysDisk where
  name : Option (List Char)
  total_space : Nat
  available_space : Nat
deriving DecidableEq

/-- One processor as exposed by the sysinfo provider (`get_cpu_usage`'s `f32`
is carried as its decimal rendering, as in `CPUReport`). -/
structure SysProcessor where
  name : List Char
  brand : List Char
  vendor_id : List Char
  frequency : Nat
  usage : List Char
deriving DecidableEq

/-- The refreshed `sysinfo::System` state read by `generate_report` after its
`sys.refresh_all()` call. -/
structure SysSnapshot where
  disks : List SysDisk
  total_memory : Nat
  available_memory : Nat
  processors : List SysProcessor
deriving DecidableEq

/-- Rust `str::trim`: strip leading and trailing whitespace (the Unicode
White_Space property, approximated here by `Char.isWhitespace`). -/
def rustTrim (s : List Char) : List Char :=
  ((s.dropWhile Char.isWhitespace).reverse.dropWhile Char.isWhitespace).reverse

/-- Rust `u64` subtraction `a - b` as it behaves in an optimized build:
wrap-around modulo 2^64. -/
def u64_sub (a b : Nat) : Nat := (((a : Int) - (b : Int)).emod (2 ^ 64)).toNat

/-- `generate_report` from runner.rs: disks whose names are not valid UTF-8
are dropped by the `filter_map`; used space is capacity minus available. -/
def generate_report (sys : SysSnapshot) : Except AppError SystemReport :=
  let disk_reports : List DiskReport := sys.disks.filterMap (fun d =>
    match d.name with
    | none => none
    | some n =>
      some { name := rustTrim n
             disk_used := u64_sub d.total_space d.available_space
             disk_capacity := d.total_space })
  let memory_report : MemoryReport :=
    { memory_used := u64_sub sys.total_memory sys.available_memory
      memory_capacity := sys.total_memory }
  let cpu_reports : List CPUReport := sys.processors.map (fun x =>
    { name := rustTrim x.name
      brand := rustTrim x.brand
      vendor_id := rustTrim x.vendor_id
      frequency := x.frequency
      usage := x.usage })
  Except.ok
    { disks := disk_reports
      cpus := cpu_reports
      memory := memory_report }

/-! ## Transmission (src/lib/runner.rs, `Runner::transmit_report`) -/

/-- The three publisher calls a transmission can make. -/
inductive PubCall
| connect
| publish
| disconnect
deriving DecidableEq

/-- Behavior of the external mqtt client for one transmission: the outcome
each of `connect`, `publish`, `disconnect` would have if called. -/
structure Publisher where
  connectResult : Except String Unit
  publishResult : Except String Unit
  disconnectResult : Except String Unit

/-- `Runner::transmit_report` from runner.rs, returning its result together
with the sequence of publisher calls actually made.  The source returns the
connect error at once; returns the publish error at once; and only after a
successful publish calls disconnect, whose error is likewise returned. -/
def transmit_report (p : Publisher) : Except AppError Unit × List PubCall :=
  match p.connectResult with
  | Except.error e => (Except.error (AppError.runtimeError e), [PubCall.connect])
  | Except.ok _ =>
    match p.publishResult with
    | Except.error e =>
      (Except.error (AppError.runtimeError e), [PubCall.connect, PubCall.publish])
    | Except.ok _ =>
      match p.disconnectResult with
      | Except.ok _ =>
        (Except.ok (), [PubCall.connect, PubCall.publish, PubCall.disconnect])
      | Except.error e =>
        (Except.error (AppError.runtimeError e),
         [PubCall.connect, PubCall.publish, PubCall.disconnect])

/-! ## The scheduler (src/lib/runner.rs, `run`) -/

/-- Decidable equality for `Except`, needed to evaluate concrete traces. -/
instance {ε α : Type} [DecidableEq ε] [DecidableEq α] : DecidableEq (Except ε α)
| Except.ok a, Except.ok b =>
  if h : a = b then Decidable.isTrue (by rw [h])
  else Decidable.isFalse (by intro hc; cases hc; exact h rfl)
| Except.ok _, Except.error _ => Decidable.isFalse (by intro hc; cases hc)
| Except.error _, Except.ok _ => Decidable.isFalse (by intro hc; cases hc)
| Except.error e, Except.error f =>
  if h : e = f then Decidable.isTrue (by rw [h])
  else Decidable.isFalse (by intro hc; cases hc; exact h rfl)

/-- Observable events of `run` and its worker thread. -/
inductive RunEv
| cycle (result : Except String Unit)
| cycleErrLogged (msg : String)
| wait (elapsedSecs : Nat)
| workerExit
| joined
deriving DecidableEq

/-- Model of `thread::park_timeout(timeout)`: with no unpark the full timeout
elapses; an unpark arriving `t` seconds into the wait (or a token already
pending, `t = 0`) wakes the thread at `min t timeout`. -/
def parkTimeout (timeout : Nat) (unparkAt : Option Nat) : Nat :=
  match unparkAt with
  | none => timeout
  | some t => min t timeout

/-- Environment of the continuous-mode worker: the outcome each
`execute_check` call would have, and, per iteration, when (seconds into the
wait) the ctrl-c handler's `unpark` arrives, if at all. -/
structure WorkerEnv where
  cycleResult : Nat → Except String Unit
  unparkDuring : Nat → Option Nat

/-- The worker loop spawned by `run` in Continuous mode:
`while running.load(SeqCst) { execute_check(); park_timeout(interval * 60s) }`.
`flags` lists the successive values the loop condition reads from the shared
`running` flag (the ctrl-c handler stores `false`, so a real trace is trues
followed by falses); `i` numbers the cycles. -/
def worker (env : WorkerEnv) (interval : Nat) : List Bool → Nat → List RunEv
| [], _ => []
| b :: rest, i =>
  if b then
    RunEv.cycle (env.cycleResult i) ::
      ((match env.cycleResult i with
        | Except.ok _ => []
        | Except.error e => [RunEv.cycleErrLogged e]) ++
       (RunEv.wait (parkTimeout (interval * MINUTES_MULTIPLIER) (env.unparkDuring i)) ::
        worker env interval rest (i + 1)))
  else [RunEv.workerExit]

/-- Everything `run` observes from the outside world: the configuration
source, the fresh uuid used for the default device name, the outcome of
`paho_mqtt::Client::new`, the outcome of `ctrlc::set_handler`, the worker's
cycle outcomes and flag reads.  In Single mode the one `execute_check` call
has outcome `cycleResult 0`. -/
structure RunEnv where
  freshId : String
  configSource : Option (Except String Settings)
  clientNew : Except String Unit
  handlerInstall : Except String Unit
  cycleResult : Nat → Except String Unit
  unparkDuring : Nat → Option Nat
  flags : List Bool

/-- `run` from runner.rs, returning its result and the event trace.  Single
mode: one `execute_check`, error logged, `Ok(())` regardless.  Continuous
mode: the worker is spawned first; if `ctrlc::set_handler` then fails, `run`
returns the error at once — without joining the worker — otherwise it joins
and returns `Ok(())`. -/
def run (env : RunEnv) : Except AppError Unit × List RunEv :=
  match load_config env.freshId env.configSource with
  | Except.error e => (Except.error e, [])
  | Except.ok cfg =>
    match env.clientNew with
    | Except.error e => (Except.error (AppError.runtimeError e), [])
    | Except.ok _ =>
      match cfg.runtime_mode with
      | RuntimeMode.Single =>
        (Except.ok (),
         RunEv.cycle (env.cycleResult 0) ::
           (match env.cycleResult 0 with
            | Except.ok _ => []
            | Except.error e => [RunEv.cycleErrLogged e]))
      | RuntimeMode.Continuous =>
        let wtrace := worker ⟨env.cycleResult, env.unparkDuring⟩
          cfg.check_interval env.flags 0
        match env.handlerInstall with
        | Except.error e => (Except.error (AppError.runtimeError e), wtrace)
        | Except.ok _ => (Except.ok (), wtrace ++ [RunEv.joined])

/-! ## The entry point (src/main.rs) -/

/-- A line printed by `main`, tagged with its stream. -/
inductive OutLine
| stdout (s : String)
| stderr (s : String)
deriving DecidableEq

/-- `main` from main.rs: prints the banner, runs, prints `Run complete` on
success or the debug-formatted error to stderr on failure, and returns `()`
either way — so the process exit status is 0 on both paths. -/
def mainFn (runResult : Except AppError Unit) : Nat × List OutLine :=
  match runResult with
  | Except.ok _ =>
    (0, [OutLine.stdout "Running Device Stats Reporter",
         OutLine.stdout "Run complete"])
  | Except.error e =>
    (0, [OutLine.stdout "Running Device Stats Reporter",
         OutLine.stderr ("Error running Device Stats Reporter: " ++ e.debugFmt)])

/-! ## The codec (src/lib/runner.rs, `execute_check`)

`execute_check` builds the payload as
`compress_prepend_size(serde_json::to_string(&report_message).as_bytes())`.
The serializer below renders exactly the serde_json output for the
`camelCase`-renamed structs of report.rs; `utf8Encode` is `str::as_bytes`.
Bytes are `Nat`s (each < 256 for real data). -/

/-- UTF-8 encoding of one unicode scalar value. -/
def utf8Char (c : Char) : List Nat :=
  let n := c.toNat
  if n < 0x80 then [n]
  else if n < 0x800 then [0xC0 + n / 64, 0x80 + n % 64]
  else if n < 0x10000 then
    [0xE0 + n / 4096, 0x80 + n / 64 % 64, 0x80 + n % 64]
  else
    [0xF0 + n / 262144, 0x80 + n / 4096 % 64, 0x80 + n / 64 % 64, 0x80 + n % 64]

/-- `str::as_bytes`: UTF-8 encoding of a character sequence. -/
def utf8Encode : List Char → List Nat
| [] => []
| c :: t => utf8Char c ++ utf8Encode t

/-- Build a `Char` from a code point, failing on invalid scalar values. -/
def mkChar? (n : Nat) : Option Char :=
  if n < 0xd800 ∨ (0xdfff < n ∧ n < 0x110000) then some (Char.ofNat n) else none

/-- Decode one UTF-8 encoded scalar value off the front of a byte sequence,
rejecting stray continuation bytes, overlong forms and invalid scalars. -/
def utf8DecodeOne : List Nat → Option (Char × List Nat)
| [] => none
| b0 :: t =>
  if b0 < 0x80 then (mkChar? b0).map (fun c => (c, t))
  else if b0 < 0xC0 then none
  else if b0 < 0xE0 then
    match t with
    | b1 :: t1 =>
      if 0x80 ≤ b1 ∧ b1 < 0xC0 then
        let n := (b0 - 0xC0) * 64 + (b1 - 0x80)
        if 0x80 ≤ n then (mkChar? n).map (fun c => (c, t1)) else none
      else none
    | [] => none
  else if b0 < 0xF0 then
    match t with
    | b1 :: b2 :: t2 =>
      if (0x80 ≤ b1 ∧ b1 < 0xC0) ∧ (0x80 ≤ b2 ∧ b2 < 0xC0) then
        let n := (b0 - 0xE0) * 4096 + (b1 - 0x80) * 64 + (b2 - 0x80)
        if 0x800 ≤ n then (mkChar? n).map (fun c => (c, t2)) else none
      else none
    | _ => none
  else if b0 < 0xF8 then
    match t with
    | b1 :: b2 :: b3 :: t3 =>
      if (0x80 ≤ b1 ∧ b1 < 0xC0) ∧ (0x80 ≤ b2 ∧ b2 < 0xC0) ∧
         (0x80 ≤ b3 ∧ b3 < 0xC0) then
        let n := (b0 - 0xF0) * 262144 + (b1 - 0x80) * 4096 +
          (b2 - 0x80) * 64 + (b3 - 0x80)
        if 0x10000 ≤ n then (mkChar? n).map (fun c => (c, t3)) else none
      else none
    | _ => none
  else none

/-- Fuel-driven loop decoding a whole UTF-8 byte sequence. -/
def utf8DecodeAux : Nat → List Nat → Option (List Char)
| _, [] => some []
| 0, _ :: _ => none
| fuel + 1, b :: t =>
  match utf8DecodeOne (b :: t) with
  | none => none
  | some (c, rest) => (utf8DecodeAux fuel rest).map (fun s => c :: s)

/-- Decode a UTF-8 byte sequence to characters (inverse of `utf8Encode`). -/
def utf8Decode (bs : List Nat) : Option (List Char) := utf8DecodeAux bs.length bs

/-- Lower-case hex digit, as serde_json uses in `\u00XX` escapes. -/
def hexDigitChar (n : Nat) : Char :=
  if n < 10 then Char.ofNat (48 + n) else Char.ofNat (87 + n)

/-- serde_json's escaping of one character inside a JSON string: quote and
backslash get two-character escapes, the five named control characters get
theirs, remaining control characters get `\u00XX`, everything else passes
through unescaped. -/
def escapeChar (c : Char) : List Char :=
  if c = '"' then ['\\', '"']
  else if c = '\\' then ['\\', '\\']
  else if c = '\x08' then ['\\', 'b']
  else if c = '\x09' then ['\\', 't']
  else if c = '\x0a' then ['\\', 'n']
  else if c = '\x0c' then ['\\', 'f']
  else if c = '\x0d' then ['\\', 'r']
  else if c.toNat < 0x20 then
    ['\\', 'u', '0', '0', hexDigitChar (c.toNat / 16), hexDigitChar (c.toNat % 16)]
  else [c]

/-- Escape a whole string body. -/
def escapeString : List Char → List Char
| [] => []
| c :: t => escapeChar c ++ escapeString t

/-- Render a JSON string: quote, escaped body, quote. -/
def renderJString (s : List Char) : List Char :=
  '"' :: (escapeString s ++ ['"'])

/-- Hex digit value of a character, if it is one. -/
def hexVal (c : Char) : Option Nat :=
  if '0' ≤ c ∧ c ≤ '9' then some (c.toNat - 48)
  else if 'a' ≤ c ∧ c ≤ 'f' then some (c.toNat - 87)
  else if 'A' ≤ c ∧ c ≤ 'F' then some (c.toNat - 55)
  else none

/-- Parse a JSON string body (the opening quote already consumed) up to and
including the closing quote, undoing the escapes of `escapeChar`. -/
def parseJString : List Char → Option (List Char × List Char)
| [] => none
| c :: t =>
  if c = '"' then some ([], t)
  else if c = '\\' then
    match t with
    | [] => none
    | e :: t1 =>
      if e = '"' then (parseJString t1).map (fun r => ('"' :: r.1, r.2))
      else if e = '\\' then (parseJString t1).map (fun r => ('\\' :: r.1, r.2))
      else if e = 'b' then (parseJString t1).map (fun r => ('\x08' :: r.1, r.2))
      else if e = 't' then (parseJString t1).map (fun r => ('\x09' :: r.1, r.2))
      else if e = 'n' then (parseJString t1).map (fun r => ('\x0a' :: r.1, r.2))
      else if e = 'f' then (parseJString t1).map (fun r => ('\x0c' :: r.1, r.2))
      else if e = 'r' then (parseJString t1).map (fun r => ('\x0d' :: r.1, r.2))
      else if e = 'u' then
        match t1 with
        | h1 :: h2 :: h3 :: h4 :: t2 =>
          match hexVal h1, hexVal h2, hexVal h3, hexVal h4 with
          | some a, some b, some g, some d =>
            match mkChar? (a * 4096 + b * 256 + g * 16 + d) with
            | some ch => (parseJString t2).map (fun r => (ch :: r.1, r.2))
            | none => none
          | _, _, _, _ => none
        | _ => none
      else none
  else (parseJString t).map (fun r => (c :: r.1, r.2))

/-- Decimal digit character for a value below 10. -/
def digitChar (n : Nat) : Char := Char.ofNat (48 + n)

/-- Fuel-driven decimal rendering of a natural number (most significant digit
first); `fuel` bounds the number of digits. -/
def natToCharsAux : Nat → Nat → List Char
| 0, _ => []
| fuel + 1, n =>
  if n < 10 then [digitChar n]
  else natToCharsAux fuel (n / 10) ++ [digitChar (n % 10)]

/-- Decimal rendering of a `u64`, as serde_json writes integers. -/
def natToChars (n : Nat) : List Char := natToCharsAux (n + 1) n

/-- Consume leading decimal digits, accumulating their value. -/
def parseDigits : List Char → Nat → Nat × List Char
| [], acc => (acc, [])
| c :: t, acc =>
  if c.isDigit then parseDigits t (acc * 10 + (c.toNat - 48)) else (acc, c :: t)

/-- Parse a decimal natural number (at least one digit, consumed greedily). -/
def parseNat : List Char → Option (Nat × List Char)
| [] => none
| c :: t => if c.isDigit then some (parseDigits (c :: t) 0) else none

/-- Characters that may appear in a JSON number token. -/
def isTokenChar (c : Char) : Bool :=
  c.isDigit || c == '.' || c == '-' || c == '+' || c == 'e' || c == 'E'

/-- A well-formed number token: nonempty and made of number characters. -/
def tokenWF (t : List Char) : Bool := !t.isEmpty && t.all isTokenChar

/-- Parse a number token greedily (used for the `f32` usage field). -/
def parseToken (s : List Char) : Option (List Char × List Char) :=
  let tok := s.takeWhile isTokenChar
  if tok.isEmpty then none else some (tok, s.dropWhile isTokenChar)

/-- Characters of a string literal (JSON punctuation and key names). -/
def lit (s : String) : List Char := s.toList

/-- Require an exact literal prefix, returning the rest. -/
def expectL : List Char → List Char → Option (List Char)
| [], s => some s
| _ :: _, [] => none
| p :: ps, c :: cs => if c = p then expectL ps cs else none

/-- serde_json output for one `DiskReport` (`camelCase` field renames). -/
def renderDisk (d : DiskReport) : List Char :=
  lit "\x7b\"name\":" ++ renderJString d.name ++
  lit ",\"diskUsed\":" ++ natToChars d.disk_used ++
  lit ",\"diskCapacity\":" ++ natToChars d.disk_capacity ++ lit "\x7d"

/-- serde_json output for one `CPUReport`. -/
def renderCPU (c : CPUReport) : List Char :=
  lit "\x7b\"name\":" ++ renderJString c.name ++
  lit ",\"brand\":" ++ renderJString c.brand ++
  lit ",\"vendorId\":" ++ renderJString c.vendor_id ++
  lit ",\"frequency\":" ++ natToChars c.frequency ++
  lit ",\"usage\":" ++ c.usage ++ lit "\x7d"

/-- serde_json output for the `MemoryReport`. -/
def renderMemory (m : MemoryReport) : List Char :=
  lit "\x7b\"memoryUsed\":" ++ natToChars m.memory_used ++
  lit ",\"memoryCapacity\":" ++ natToChars m.memory_capacity ++ lit "\x7d"

/-- Comma-separated rendering of a sequence. -/
def renderSep (f : α → List Char) : List α → List Char
| [] => []
| [x] => f x
| x :: y :: t => f x ++ (',' :: renderSep f (y :: t))

/-- JSON array rendering. -/
def renderJList (f : α → List Char) (l : List α) : List Char :=
  '[' :: (renderSep f l ++ [']'])

/-- serde_json output for the `SystemReport`. -/
def renderReport (r : SystemReport) : List Char :=
  lit "\x7b\"disks\":" ++ renderJList renderDisk r.disks ++
  lit ",\"cpus\":" ++ renderJList renderCPU r.cpus ++
  lit ",\"memory\":" ++ renderMemory r.memory ++ lit "\x7d"

/-- `serde_json::to_string(&report_message)`: the canonical serialization of
the envelope, fields in declaration order with `camelCase` names. -/
def to_json_string (m : ReportMessage) : List Char :=
  lit "\x7b\"deviceId\":" ++ renderJString m.device_id ++
  lit ",\"messageId\":" ++ renderJString m.message_id ++
  lit ",\"timestamp\":" ++ natToChars m.timestamp ++
  lit ",\"report\":" ++ renderReport m.report ++ lit "\x7d"

/-- Parse the tail of a nonempty JSON array, one element per unit of fuel. -/
def parseListRest (pf : List Char → Option (α × List Char)) :
    Nat → List Char → Option (List α × List Char)
| 0, _ => none
| fuel + 1, s =>
  match pf s with
  | none => none
  | some (x, s1) =>
    match s1 with
    | ']' :: t => some ([x], t)
    | ',' :: t => (parseListRest pf fuel t).map (fun r => (x :: r.1, r.2))
    | _ => none

/-- Parse a JSON array. -/
def parseJList (pf : List Char → Option (α × List Char)) (s : List Char) :
    Option (List α × List Char) :=
  match s with
  | '[' :: t =>
    match t with
    | [] => none
    | c :: t2 =>
      if c = ']' then some ([], t2) else parseListRest pf (t2.length + 2) (c :: t2)
  | _ => none

/-- Parse one `DiskReport` object. -/
def parseDisk (s : List Char) : Option (DiskReport × List Char) := do
  let s ← expectL (lit "\x7b\"name\":\"") s
  let (name, s) ← parseJString s
  let s ← expectL (lit ",\"diskUsed\":") s
  let (u, s) ← parseNat s
  let s ← expectL (lit ",\"diskCapacity\":") s
  let (cap, s) ← parseNat s
  let s ← expectL (lit "\x7d") s
  some ({ name := name, disk_used := u, disk_capacity := cap }, s)

/-- Parse one `CPUReport` object. -/
def parseCPU (s : List Char) : Option (CPUReport × List Char) := do
  let s ← expectL (lit "\x7b\"name\":\"") s
  let (name, s) ← parseJString s
  let s ← expectL (lit ",\"brand\":\"") s
  let (brand, s) ← parseJString s
  let s ← expectL (lit ",\"vendorId\":\"") s
  let (vid, s) ← parseJString s
  let s ← expectL (lit ",\"frequency\":") s
  let (freq, s) ← parseNat s
  let s ← expectL (lit ",\"usage\":") s
  let (usage, s) ← parseToken s
  let s ← expectL (lit "\x7d") s
  some ({ name := name, brand := brand, vendor_id := vid,
          frequency := freq, usage := usage }, s)

/-- Parse the `MemoryReport` object. -/
def parseMemory (s : List Char) : Option (MemoryReport × List Char) := do
  let s ← expectL (lit "\x7b\"memoryUsed\":") s
  let (u, s) ← parseNat s
  let s ← expectL (lit ",\"memoryCapacity\":") s
  let (cap, s) ← parseNat s
  let s ← expectL (lit "\x7d") s
  some ({ memory_used := u, memory_capacity := cap }, s)

/-- Parse the `SystemReport` object. -/
def parseReport (s : List Char) : Option (SystemReport × List Char) := do
  let s ← expectL (lit "\x7b\"disks\":") s
  let (disks, s) ← parseJList parseDisk s
  let s ← expectL (lit ",\"cpus\":") s
  let (cpus, s) ← parseJList parseCPU s
  let s ← expectL (lit ",\"memory\":") s
  let (mem, s) ← parseMemory s
  let s ← expectL (lit "\x7d") s
  some ({ disks := disks, cpus := cpus, memory := mem }, s)

/-- Parse a whole serialized `ReportMessage`. -/
def parseMessage (s : List Char) : Option (ReportMessage × List Char) := do
  let s ← expectL (lit "\x7b\"deviceId\":\"") s
  let (devId, s) ← parseJString s
  let s ← expectL (lit ",\"messageId\":\"") s
  let (msgId, s) ← parseJString s
  let s ← expectL (lit ",\"timestamp\":") s
  let (ts, s) ← parseNat s
  let s ← expectL (lit ",\"report\":") s
  let (rep, s) ← parseReport s
  let s ← expectL (lit "\x7d") s
  some ({ device_id := devId, message_id := msgId,
          timestamp := ts, report := rep }, s)

/-! ## Block compression

Modelled from the spec: the compression collaborator
(`lz4_flex::compress_prepend_size` and its inverse, external to `src/`) is "a
block-compression step that prepends the uncompressed payload length before
the compressed bytes, so a decoder never needs an external length channel".
The block coder here is a run-length scheme with the same interface: a 4-byte
little-endian uncompressed length followed by the compressed block, with the
decoder checking the decompressed size against the prefix. -/

/-- Length of the run of `b`s at the front of the list. -/
def countRun (b : Nat) : List Nat → Nat
| [] => 0
| x :: t => if x = b then countRun b t + 1 else 0

/-- Fuel-driven run-length block compression: each maximal run (capped at 255
bytes) becomes a (count - 1, byte) pair. -/
def rleCompressAux : Nat → List Nat → List Nat
| _, [] => []
| 0, _ :: _ => []
| fuel + 1, b :: t =>
  let n := min (countRun b t) 254
  n :: b :: rleCompressAux fuel (t.drop n)

/-- Run-length compression of a block. -/
def rleCompress (l : List Nat) : List Nat := rleCompressAux l.length l

/-- Run-length decompression; fails on a dangling half pair. -/
def rleDecompress : List Nat → Option (List Nat)
| [] => some []
| [_] => none
| n :: b :: t => (rleDecompress t).map (fun r => List.replicate (n + 1) b ++ r)

/-- 4-byte little-endian encoding of a length. -/
def toLE4 (n : Nat) : List Nat :=
  [n % 256, n / 256 % 256, n / 65536 % 256, n / 16777216 % 256]

/-- Modelled from the spec: `compress_prepend_size` — prepend the uncompressed
payload length, then the compressed block. -/
def compress_prepend_size (bs : List Nat) : List Nat :=
  toLE4 bs.length ++ rleCompress bs

/-- Modelled from the spec: the matching size-checked decompression — read the
4-byte length, decompress the block, and fail unless the decompressed size
matches the prefix. -/
def decompress_size_prepended : List Nat → Option (List Nat)
| b0 :: b1 :: b2 :: b3 :: t =>
  let sz := b0 + b1 * 256 + b2 * 65536 + b3 * 16777216
  match rleDecompress t with
  | none => none
  | some payload => if payload.length = sz then some payload else none
| _ => none

/-- Well-formedness of an envelope for serialization: every cpu's usage field
holds a number token (the rendering of a finite `f32`). -/
def messageWF (m : ReportMessage) : Bool :=
  m.report.cpus.all (fun c => tokenWF c.usage)

/-- The payload `execute_check` transmits: canonical serialization, UTF-8
bytes, length-prefixed block compression. -/
def encode (m : ReportMessage) : List Nat :=
  compress_prepend_size (utf8Encode (to_json_string m))

/-- Modelled from the spec: `decode(bytes) -> envelope`, "the exact inverse"
of the encoding — no decoder exists under `src/`, so this is the spec's
decoder: undo the length-prefixed block compression, the UTF-8 encoding and
the canonical serialization, failing (returning `none`) on any mismatch or
leftover input rather than producing malformed data. -/
def decode (bs : List Nat) : Option ReportMessage :=
  match decompress_size_prepended bs with
  | none => none
  | some payload =>
    match utf8Decode payload with
    | none => none
    | some chars =>
      match parseMessage chars with
      | none => none
      | some (m, rest) => if rest.isEmpty then some m else none

/-! ## Concrete inputs for witnesses and counterexamples -/

/-- A publisher whose connect succeeds and whose publish fails. -/
def pubFailPublish : Publisher :=
  { connectResult := Except.ok ()
    publishResult := Except.error "publish failed"
    disconnectResult := Except.ok () }

/-- Settings selecting Continuous mode with no interval key. -/
def contSettings : Settings :=
  { device_name := none, server_address := none, topic := none,
    runtime_mode := some "Continuous", check_interval := IntervalSetting.absent }

/-- Settings selecting Continuous mode with interval 5. -/
def contSettings5 : Settings :=
  { device_name := none, server_address := none, topic := none,
    runtime_mode := some "Continuous", check_interval := IntervalSetting.value 5 }

/-- Settings with an unrecognized runtime mode literal. -/
def bogusSettings : Settings :=
  { device_name := none, server_address := none, topic := none,
    runtime_mode := some "Bogus", check_interval := IntervalSetting.absent }

/-- An environment whose configuration source fails to parse. -/
def envConfigFail : RunEnv :=
  { freshId := "id", configSource := some (Except.error "parse failed"),
    clientNew := Except.ok (), handlerInstall := Except.ok (),
    cycleResult := fun _ => Except.ok (), unparkDuring := fun _ => none,
    flags := [] }

/-- A Continuous-mode environment where installing the interrupt handler
fails while the already-spawned worker runs one cycle and then observes
cancellation. -/
def envSignalFail : RunEnv :=
  { freshId := "id", configSource := some (Except.ok contSettings),
    clientNew := Except.ok (), handlerInstall := Except.error "signal handler failed",
    cycleResult := fun _ => Except.ok (), unparkDuring := fun _ => none,
    flags := [true, false] }

/-- The same Continuous-mode environment with the handler installed fine. -/
def envContinuousOk : RunEnv :=
  { freshId := "id", configSource := some (Except.ok contSettings),
    clientNew := Except.ok (), handlerInstall := Except.ok (),
    cycleResult := fun _ => Except.ok (), unparkDuring := fun _ => some 2,
    flags := [true, false] }

/-- A default-configuration (Single mode) environment whose one cycle fails. -/
def envSingleFail : RunEnv :=
  { freshId := "id", configSource := none,
    clientNew := Except.ok (), handlerInstall := Except.ok (),
    cycleResult := fun _ => Except.error "boom", unparkDuring := fun _ => none,
    flags := [] }

/-- A snapshot with one ordinary disk and one disk whose OS name is not
valid UTF-8. -/
def snapshotSample : SysSnapshot :=
  { disks := [{ name := some ['s', 'd', 'a'], total_space := 100, available_space := 40 },
              { name := none, total_space := 7, available_space := 3 }],
    total_memory := 200, available_memory := 50,
    processors := [] }

/-- A small concrete envelope for evaluating the codec. -/
def sampleMessage : ReportMessage :=
  { device_id := ['d', '1'], message_id := ['m', '1'], timestamp := 7,
    report :=
      { disks := [{ name := ['s', 'd', 'a'], disk_used := 50, disk_capacity := 100 }],
        cpus := [{ name := ['c', 'p', 'u', '0'], brand := ['A'], vendor_id := ['G'],
                   frequency := 2400, usage := ['7', '.', '5'] }],
        memory := { memory_used := 10, memory_capacity := 20 } } }

/-- The sample encoding with its length prefix tampered (first byte bumped):
the size check must reject it. -/
def tamperedSample : List Nat :=
  match encode sampleMessage with
  | [] => []
  | b :: t => (b + 1) % 256 :: t

/-! ## Helper counts over traces -/

/-- Whether an event is the start of a cycle (an `execute_check` call). -/
def isCycleEv : RunEv → Bool
| RunEv.cycle _ => true
| _ => false

/-- Number of cycles started in a trace. -/
def countCycles (tr : List RunEv) : Nat := tr.countP isCycleEv

/-- Number of loop-condition reads that see `true` before the first `false`:
with a monotone flag, the number of reads taken before cancellation. -/
def leadingTrues : List Bool → Nat
| [] => 0
| b :: rest => if b then leadingTrues rest + 1 else 0

/-! # Theorems

Shared helper lemmas first, then one theorem per claim together with its
witness or counterexample. -/

/-- The worker starts exactly as many cycles as there are `true` flag reads
before the first `false`: no cycle starts at or after the read observing
cancellation. -/
theorem countCycles_worker (env : WorkerEnv) (interval : Nat) :
    ∀ (flags : List Bool) (i : Nat),
      countCycles (worker env interval flags i) = leadingTrues flags := by
  intro flags
  induction flags with
  | nil => intro i; rfl
  | cons b rest ih =>
    intro i
    cases b with
    | false =>
      show countCycles [RunEv.workerExit] = 0
      decide
    | true =>
      have h := ih (i + 1)
      unfold countCycles at h ⊢
      cases hres : env.cycleResult i with
      | ok u =>
        simp [worker, hres, leadingTrues, List.countP_cons,
          List.countP_append, isCycleEv, h]
      | error e =>
        simp [worker, hres, leadingTrues, List.countP_cons,
          List.countP_append, isCycleEv, h]

/-- A worker whose flag reads include a `false` reaches its exit. -/
theorem workerExit_mem_worker (env : WorkerEnv) (interval : Nat) :
    ∀ (flags : List Bool) (i : Nat), false ∈ flags →
      RunEv.workerExit ∈ worker env interval flags i := by
  intro flags
  induction flags with
  | nil => intro i h; cases h
  | cons b rest ih =>
    intro i h
    cases b with
    | false => simp [worker]
    | true =>
      have hrest : false ∈ rest := by simpa using h
      cases hres : env.cycleResult i with
      | ok u => simp [worker, hres]; exact ih (i + 1) hrest
      | error e => simp [worker, hres]; exact ih (i + 1) hrest

/-- The worker trace never contains the caller's join event. -/
theorem joined_not_mem_worker (env : WorkerEnv) (interval : Nat) :
    ∀ (flags : List Bool) (i : Nat), RunEv.joined ∉ worker env interval flags i := by
  intro flags
  induction flags with
  | nil => intro i h; cases h
  | cons b rest ih =>
    intro i h
    cases b with
    | false => simp [worker] at h
    | true =>
      cases hres : env.cycleResult i with
      | ok u => simp [worker, hres] at h; exact ih (i + 1) h
      | error e => simp [worker, hres] at h; exact ih (i + 1) h

/-- C1: the claim says a failed publish is still followed by exactly one
disconnect attempt.  On the code it is not: with a successful connect and a
failing publish, `transmit_report` makes no disconnect call at all (the call
trace is connect, publish) and returns the publish error. -/
theorem C1_counterexample :
    (transmit_report pubFailPublish).2.count PubCall.disconnect = 0 ∧
    ¬ (transmit_report pubFailPublish).2.count PubCall.disconnect = 1 ∧
    (transmit_report pubFailPublish).1 =
      Except.error (AppError.runtimeError "publish failed") := by
  decide

/-- C1 (amended): when connect succeeds and publish fails, `transmit_report`
returns the publish error immediately and disconnect is not attempted; the
call sequence is exactly connect then publish.  (Disconnect runs only after a
successful publish, and its failure is returned, not merely logged.) -/
theorem C1_publish_failure_skips_disconnect (p : Publisher) (e : String)
    (hc : p.connectResult = Except.ok ())
    (hp : p.publishResult = Except.error e) :
    transmit_report p =
      (Except.error (AppError.runtimeError e), [PubCall.connect, PubCall.publish]) := by
  unfold transmit_report
  rw [hc, hp]

/-- C1 witness: the amended statement at the concrete failing publisher. -/
theorem C1_witness :
    transmit_report pubFailPublish =
      (Except.error (AppError.runtimeError "publish failed"),
       [PubCall.connect, PubCall.publish]) :=
  C1_publish_failure_skips_disconnect pubFailPublish "publish failed" rfl rfl

/-- C2: once the cancellation flag is set the worker starts no further cycle —
cycles started equal the `true` flag reads before the first `false`, and a
`false` read (however it races with a wake) exits the loop; and the
inter-cycle wait is interruptible: an unpark arriving `t` seconds into the
wait ends it after `t` seconds, not after the full timeout, while without
cancellation the full timeout elapses. -/
theorem C2_cancellation_stops_loop (env : WorkerEnv) (interval : Nat)
    (flags : List Bool) (i : Nat) (t timeout : Nat) (ht : t < timeout) :
    countCycles (worker env interval flags i) = leadingTrues flags ∧
    (false ∈ flags → RunEv.workerExit ∈ worker env interval flags i) ∧
    parkTimeout timeout (some t) = t ∧
    parkTimeout timeout none = timeout := by
  refine ⟨countCycles_worker env interval flags i,
    fun h => workerExit_mem_worker env interval flags i h, ?_, rfl⟩
  simp [parkTimeout, Nat.min_eq_left (Nat.le_of_lt ht)]

/-- C2 witness: the property at a concrete worker environment, flag trace
`[true, false]`, unpark 3 seconds into a 60-second wait. -/
theorem C2_witness :
    countCycles (worker ⟨fun _ => Except.ok (), fun _ => none⟩ 1 [true, false] 0) =
      leadingTrues [true, false] ∧
    (false ∈ [true, false] →
      RunEv.workerExit ∈ worker ⟨fun _ => Except.ok (), fun _ => none⟩ 1 [true, false] 0) ∧
    parkTimeout 60 (some 3) = 3 ∧
    parkTimeout 60 none = 60 :=
  C2_cancellation_stops_loop ⟨fun _ => Except.ok (), fun _ => none⟩ 1 [true, false] 0 3 60
    (by decide)

/-- C3: the claim says a config-load or publisher-construction failure makes
the process exit non-zero.  On the code it does not: `main` prints the error
to stderr but returns `()`, so the exit status is 0 — shown here for a
failing configuration source. -/
theorem C3_counterexample :
    (run envConfigFail).1 = Except.error (AppError.runtimeError "parse failed") ∧
    (mainFn (run envConfigFail).1).1 = 0 := by
  decide

/-- C3 (amended): whenever configuration loading or client construction fails,
`run` returns that error before any cycle starts (the trace is empty) and
`main` prints it to the error stream — but the process still exits with
status 0. -/
theorem C3_startup_failure_logged_but_exit_zero (env : RunEnv) :
    (∀ e, load_config env.freshId env.configSource = Except.error e →
      run env = (Except.error e, []) ∧
      mainFn (run env).1 =
        (0, [OutLine.stdout "Running Device Stats Reporter",
             OutLine.stderr ("Error running Device Stats Reporter: " ++ e.debugFmt)])) ∧
    (∀ cfg msg, load_config env.freshId env.configSource = Except.ok cfg →
      env.clientNew = Except.error msg →
      run env = (Except.error (AppError.runtimeError msg), []) ∧
      mainFn (run env).1 =
        (0, [OutLine.stdout "Running Device Stats Reporter",
             OutLine.stderr ("Error running Device Stats Reporter: " ++
               (AppError.runtimeError msg).debugFmt)])) := by
  constructor
  · intro e he
    have hrun : run env = (Except.error e, []) := by
      unfold run
      rw [he]
    exact ⟨hrun, by rw [hrun]; rfl⟩
  · intro cfg msg hcfg hnew
    have hrun : run env = (Except.error (AppError.runtimeError msg), []) := by
      unfold run
      rw [hcfg, hnew]
    exact ⟨hrun, by rw [hrun]; rfl⟩

/-- C3 witness: the amended statement at the concrete environment whose
configuration source fails to parse. -/
theorem C3_witness :
    run envConfigFail = (Except.error (AppError.runtimeError "parse failed"), []) ∧
    mainFn (run envConfigFail).1 =
      (0, [OutLine.stdout "Running Device Stats Reporter",
           OutLine.stderr ("Error running Device Stats Reporter: " ++
             (AppError.runtimeError "parse failed").debugFmt)]) :=
  (C3_startup_failure_logged_but_exit_zero envConfigFail).1
    (AppError.runtimeError "parse failed") (by decide)

/-- C5: in Single mode `run` executes exactly one cycle and returns `Ok`
whatever that cycle's outcome; a failing cycle's error is logged in the trace
rather than propagated. -/
theorem C5_single_mode_one_cycle (env : RunEnv) (cfg : RunnerConfig)
    (hload : load_config env.freshId env.configSource = Except.ok cfg)
    (hmode : cfg.runtime_mode = RuntimeMode.Single)
    (hnew : env.clientNew = Except.ok ()) :
    (run env).1 = Except.ok () ∧
    countCycles (run env).2 = 1 ∧
    (∀ e, env.cycleResult 0 = Except.error e →
      RunEv.cycleErrLogged e ∈ (run env).2) := by
  have hrun : run env = (Except.ok (),
      RunEv.cycle (env.cycleResult 0) ::
        (match env.cycleResult 0 with
         | Except.ok _ => []
         | Except.error e => [RunEv.cycleErrLogged e])) := by
    simp only [run, hload, hnew, hmode]
  rw [hrun]
  cases hres : env.cycleResult 0 with
  | ok u =>
    refine ⟨rfl, by simp [countCycles, List.countP_cons, isCycleEv], ?_⟩
    intro e he
    simp at he
  | error e =>
    refine ⟨rfl, by simp [countCycles, List.countP_cons, isCycleEv], ?_⟩
    intro e' he
    injection he with h
    subst h
    simp

/-- C5 witness: the default (Single-mode) configuration with a failing cycle. -/
theorem C5_witness :
    (run envSingleFail).1 = Except.ok () ∧
    countCycles (run envSingleFail).2 = 1 ∧
    (∀ e, envSingleFail.cycleResult 0 = Except.error e →
      RunEv.cycleErrLogged e ∈ (run envSingleFail).2) :=
  C5_single_mode_one_cycle envSingleFail
    { device_name := "id", server_address := DEFAULT_SERVER_ADDRESS,
      topic := DEFAULT_TOPIC, runtime_mode := RuntimeMode.Single,
      check_interval := DEFAULT_CHECK_INTERVAL }
    (by decide) rfl rfl

/-- C6: the claim says `run` joins the worker on every path after spawning
it, including a failed interrupt-handler installation.  On the code that path
returns at once: with the handler installation failing, `run` returns the
error and no join happens even though the worker was spawned (it ran a
cycle). -/
theorem C6_counterexample :
    (run envSignalFail).1 =
      Except.error (AppError.runtimeError "signal handler failed") ∧
    countCycles (run envSignalFail).2 = 1 ∧
    RunEv.joined ∉ (run envSignalFail).2 := by
  decide

/-- C6 (amended): in Continuous mode, when the interrupt handler installs
successfully `run` joins the worker before returning `Ok` (the join is the
last event); but when installing the handler fails, `run` returns that error
without joining the already-spawned worker. -/
theorem C6_join_only_on_handler_success (env : RunEnv) (cfg : RunnerConfig)
    (hload : load_config env.freshId env.configSource = Except.ok cfg)
    (hmode : cfg.runtime_mode = RuntimeMode.Continuous)
    (hnew : env.clientNew = Except.ok ()) :
    (env.handlerInstall = Except.ok () →
      (run env).1 = Except.ok () ∧ (run env).2.getLast? = some RunEv.joined) ∧
    (∀ msg, env.handlerInstall = Except.error msg →
      (run env).1 = Except.error (AppError.runtimeError msg) ∧
      RunEv.joined ∉ (run env).2) := by
  constructor
  · intro hh
    have hrun : run env = (Except.ok (),
        worker ⟨env.cycleResult, env.unparkDuring⟩ cfg.check_interval env.flags 0 ++
          [RunEv.joined]) := by
      simp only [run, hload, hnew, hmode, hh]
    rw [hrun]
    exact ⟨rfl, by simp⟩
  · intro msg hh
    have hrun : run env = (Except.error (AppError.runtimeError msg),
        worker ⟨env.cycleResult, env.unparkDuring⟩ cfg.check_interval env.flags 0) := by
      simp only [run, hload, hnew, hmode, hh]
    rw [hrun]
    exact ⟨rfl, joined_not_mem_worker _ _ env.flags 0⟩

/-- C6 witness: the amended statement at the concrete Continuous environment
with a working handler installation. -/
theorem C6_witness :
    (envContinuousOk.handlerInstall = Except.ok () →
      (run envContinuousOk).1 = Except.ok () ∧
      (run envContinuousOk).2.getLast? = some RunEv.joined) ∧
    (∀ msg, envContinuousOk.handlerInstall = Except.error msg →
      (run envContinuousOk).1 = Except.error (AppError.runtimeError msg) ∧
      RunEv.joined ∉ (run envContinuousOk).2) :=
  C6_join_only_on_handler_success envContinuousOk
    { device_name := "id", server_address := DEFAULT_SERVER_ADDRESS,
      topic := DEFAULT_TOPIC, runtime_mode := RuntimeMode.Continuous,
      check_interval := DEFAULT_CHECK_INTERVAL }
    (by decide) rfl rfl

/-- A nonnegative value below 2^64 is unchanged by the `u64` reinterpretation. -/
theorem toU64_of_nonneg (v : Int) (h0 : 0 ≤ v) (hlt : v < 2 ^ 64) :
    toU64 v = v.toNat := by
  unfold toU64
  have hp : ((2 : Int) ^ 64) = 18446744073709551616 := by norm_num
  rw [hp]
  rw [hp] at hlt
  omega

/-- C7: with mode Continuous, an interval value in [1, 240] loads unchanged;
a value ≤ 0 or > 240 (within the config crate's `i64` range) fails with the
range-violation error; an absent interval defaults to 1; and in Single mode
the interval key is neither read nor validated — the default 1 is kept no
matter what the key holds. -/
theorem C7_check_interval_validation (fid : String) (s : Settings) (v : Int)
    (hmode : s.runtime_mode = some "Continuous") :
    (s.check_interval = IntervalSetting.value v → 1 ≤ v → v ≤ 240 →
      ∃ cfg, load_config fid (some (Except.ok s)) = Except.ok cfg ∧
        cfg.runtime_mode = RuntimeMode.Continuous ∧ cfg.check_interval = v.toNat) ∧
    (s.check_interval = IntervalSetting.value v → -(2 ^ 63) ≤ v → v < 2 ^ 63 →
      (v ≤ 0 ∨ 240 < v) →
      load_config fid (some (Except.ok s)) =
        Except.error (AppError.illegalArgument
          "Check interval must be between 1 and 240")) ∧
    (s.check_interval = IntervalSetting.absent →
      ∃ cfg, load_config fid (some (Except.ok s)) = Except.ok cfg ∧
        cfg.runtime_mode = RuntimeMode.Continuous ∧ cfg.check_interval = 1) ∧
    (∀ s2 : Settings, s2.runtime_mode = some "Single" →
      ∃ cfg, load_config fid (some (Except.ok s2)) = Except.ok cfg ∧
        cfg.runtime_mode = RuntimeMode.Single ∧ cfg.check_interval = 1) := by
  refine ⟨?_, ?_, ?_, ?_⟩
  · intro hci h1 h240
    have htoU : toU64 v = v.toNat := toU64_of_nonneg v (by omega) (by norm_num; omega)
    simp only [load_config, hmode, hci, CONTINUOUS_RUNTIME_MODE, if_true]
    rw [htoU]
    rw [if_pos ⟨by simp [MINIMUM_CHECK_INTERVAL, DEFAULT_CHECK_INTERVAL]; omega,
      by simp [MAXIMUM_CHECK_INTERVAL]; omega⟩]
    exact ⟨_, rfl, rfl, rfl⟩
  · intro hci hlo hhi hrange
    have hpow : ((2 : Int) ^ 64) = 18446744073709551616 := by norm_num
    have hpow63 : ((2 : Int) ^ 63) = 9223372036854775808 := by norm_num
    have hbad : ¬ (MINIMUM_CHECK_INTERVAL ≤ toU64 v ∧ toU64 v ≤ MAXIMUM_CHECK_INTERVAL) := by
      simp only [MINIMUM_CHECK_INTERVAL, MAXIMUM_CHECK_INTERVAL, DEFAULT_CHECK_INTERVAL,
        toU64, hpow]
      rw [hpow63] at hlo hhi
      omega
    simp only [load_config, hmode, hci, CONTINUOUS_RUNTIME_MODE, if_true]
    rw [if_neg hbad]
  · intro hci
    simp only [load_config, hmode, hci, CONTINUOUS_RUNTIME_MODE, if_true]
    exact ⟨_, rfl, rfl, rfl⟩
  · intro s2 h2
    simp only [load_config, h2, CONTINUOUS_RUNTIME_MODE, SINGLE_RUNTIME_MODE,
      if_true, if_false]
    exact ⟨_, rfl, rfl, rfl⟩

/-- C7 witness: the Continuous settings with interval value 5. -/
theorem C7_witness :
    (contSettings5.check_interval = IntervalSetting.value 5 → 1 ≤ (5 : Int) → (5 : Int) ≤ 240 →
      ∃ cfg, load_config "id" (some (Except.ok contSettings5)) = Except.ok cfg ∧
        cfg.runtime_mode = RuntimeMode.Continuous ∧ cfg.check_interval = (5 : Int).toNat) ∧
    (contSettings5.check_interval = IntervalSetting.value 5 → -(2 ^ 63) ≤ (5 : Int) → (5 : Int) < 2 ^ 63 →
      ((5 : Int) ≤ 0 ∨ 240 < (5 : Int)) →
      load_config "id" (some (Except.ok contSettings5)) =
        Except.error (AppError.illegalArgument
          "Check interval must be between 1 and 240")) ∧
    (contSettings5.check_interval = IntervalSetting.absent →
      ∃ cfg, load_config "id" (some (Except.ok contSettings5)) = Except.ok cfg ∧
        cfg.runtime_mode = RuntimeMode.Continuous ∧ cfg.check_interval = 1) ∧
    (∀ s2 : Settings, s2.runtime_mode = some "Single" →
      ∃ cfg, load_config "id" (some (Except.ok s2)) = Except.ok cfg ∧
        cfg.runtime_mode = RuntimeMode.Single ∧ cfg.check_interval = 1) :=
  C7_check_interval_validation "id" contSettings5 5 rfl

/-- C8: any runtime-mode literal other than `Single` and `Continuous` fails
configuration loading with an `IllegalArgumentError` naming the literal. -/
theorem C8_unexpected_mode_error (fid : String) (s : Settings) (m : String)
    (hm : s.runtime_mode = some m)
    (hc : m ≠ "Continuous") (hs : m ≠ "Single") :
    load_config fid (some (Except.ok s)) =
      Except.error (AppError.illegalArgument
        ("Unexpected runtime mode '" ++ m ++ "'")) := by
  simp only [load_config, hm, CONTINUOUS_RUNTIME_MODE, SINGLE_RUNTIME_MODE]
  rw [if_neg hc, if_neg hs]

/-- C8 witness: the literal `Bogus`. -/
theorem C8_witness :
    load_config "id" (some (Except.ok bogusSettings)) =
      Except.error (AppError.illegalArgument
        ("Unexpected runtime mode '" ++ "Bogus" ++ "'")) :=
  C8_unexpected_mode_error "id" bogusSettings "Bogus" rfl (by decide) (by decide)

/-- Wrapped `u64` subtraction is plain subtraction when it cannot underflow. -/
theorem u64_sub_eq (a b : Nat) (h : b ≤ a) (h2 : a < 2 ^ 64) :
    u64_sub a b = a - b := by
  unfold u64_sub
  have h3 : ((a : Int) - (b : Int)).emod (2 ^ 64) = (a : Int) - (b : Int) := by
    refine Int.emod_eq_of_lt (by omega) ?_
    have : ((2 : Int) ^ 64) = 18446744073709551616 := by norm_num
    omega
  rw [h3]
  omega

/-- C9: when every disk's available space is at most its total space (and the
same for memory), the generated report satisfies `used ≤ capacity` for every
disk report and for the memory report, with no subtraction underflow. -/
theorem C9_report_used_le_capacity (sys : SysSnapshot)
    (hd : ∀ d ∈ sys.disks, d.available_space ≤ d.total_space ∧ d.total_space < 2 ^ 64)
    (hm : sys.available_memory ≤ sys.total_memory)
    (hm2 : sys.total_memory < 2 ^ 64) :
    ∃ r, generate_report sys = Except.ok r ∧
      (∀ dr ∈ r.disks, dr.disk_used ≤ dr.disk_capacity) ∧
      r.memory.memory_used ≤ r.memory.memory_capacity := by
  have hgen : generate_report sys = Except.ok (SystemReport.mk
      (sys.disks.filterMap (fun d =>
        match d.name with
        | none => none
        | some n => some (DiskReport.mk (rustTrim n)
            (u64_sub d.total_space d.available_space) d.total_space)))
      (sys.processors.map (fun x => CPUReport.mk (rustTrim x.name) (rustTrim x.brand)
        (rustTrim x.vendor_id) x.frequency x.usage))
      (MemoryReport.mk (u64_sub sys.total_memory sys.available_memory) sys.total_memory)) := rfl
  refine ⟨_, hgen, ?_, ?_⟩
  · intro dr hdr
    simp only [List.mem_filterMap] at hdr
    obtain ⟨d, hdm, hf⟩ := hdr
    cases hn : d.name with
    | none => rw [hn] at hf; cases hf
    | some n =>
      rw [hn] at hf
      injection hf with hf
      obtain ⟨hav, hlt⟩ := hd d hdm
      rw [← hf]
      show u64_sub d.total_space d.available_space ≤ d.total_space
      rw [u64_sub_eq _ _ hav hlt]
      omega
  · show u64_sub sys.total_memory sys.available_memory ≤ sys.total_memory
    rw [u64_sub_eq _ _ hm hm2]
    omega

/-- C9 witness: a concrete snapshot with two disks. -/
theorem C9_witness :
    ∃ r, generate_report snapshotSample = Except.ok r ∧
      (∀ dr ∈ r.disks, dr.disk_used ≤ dr.disk_capacity) ∧
      r.memory.memory_used ≤ r.memory.memory_capacity :=
  C9_report_used_le_capacity snapshotSample (by decide) (by decide) (by decide)

/-- The disk `filter_map` of `generate_report` equals: keep exactly the disks
with UTF-8-representable names, in order, and convert each. -/
theorem filterMap_disks_eq (l : List SysDisk) :
    l.filterMap (fun d =>
      match d.name with
      | none => none
      | some n => some (DiskReport.mk (rustTrim n)
          (u64_sub d.total_space d.available_space) d.total_space)) =
    (l.filter (fun d => d.name.isSome)).map (fun d =>
      DiskReport.mk (rustTrim (d.name.getD []))
        (u64_sub d.total_space d.available_space) d.total_space) := by
  induction l with
  | nil => rfl
  | cons d t ih =>
    cases hn : d.name with
    | none => simp [List.filterMap_cons, List.filter_cons, hn, ih]
    | some n => simp [List.filterMap_cons, List.filter_cons, hn, ih]

/-- C10: `generate_report` never fails on a disk whose OS name is not valid
UTF-8 — it silently omits exactly those disks, and the surviving disk reports
are the valid-named disks in the provider's enumeration order. -/
theorem C10_invalid_utf8_disks_omitted (sys : SysSnapshot) :
    ∃ r, generate_report sys = Except.ok r ∧
      r.disks = (sys.disks.filter (fun d => d.name.isSome)).map (fun d =>
        DiskReport.mk (rustTrim (d.name.getD []))
          (u64_sub d.total_space d.available_space) d.total_space) := by
  have hgen : generate_report sys = Except.ok (SystemReport.mk
      (sys.disks.filterMap (fun d =>
        match d.name with
        | none => none
        | some n => some (DiskReport.mk (rustTrim n)
            (u64_sub d.total_space d.available_space) d.total_space)))
      (sys.processors.map (fun x => CPUReport.mk (rustTrim x.name) (rustTrim x.brand)
        (rustTrim x.vendor_id) x.frequency x.usage))
      (MemoryReport.mk (u64_sub sys.total_memory sys.available_memory) sys.total_memory)) := rfl
  refine ⟨_, hgen, ?_⟩
  exact filterMap_disks_eq sys.disks

/-- Arithmetic form of a character's scalar-value validity. -/
theorem char_valid (c : Char) :
    c.toNat < 0xd800 ∨ (0xdfff < c.toNat ∧ c.toNat < 0x110000) := c.valid

/-- `mkChar?` applied to a character's own code point returns it. -/
theorem mkChar?_toNat (c : Char) : mkChar? c.toNat = some c := by
  unfold mkChar?
  rw [if_pos (char_valid c), Char.ofNat_toNat]

/-- Decoding the UTF-8 bytes of one character off any tail recovers it. -/
theorem utf8DecodeOne_append (c : Char) (rest : List Nat) :
    utf8DecodeOne (utf8Char c ++ rest) = some (c, rest) := by
  have hv := char_valid c
  unfold utf8Char
  by_cases h1 : c.toNat < 0x80
  · rw [if_pos h1]
    show utf8DecodeOne (c.toNat :: rest) = some (c, rest)
    simp only [utf8DecodeOne]
    rw [if_pos h1, mkChar?_toNat]
    rfl
  · rw [if_neg h1]
    by_cases h2 : c.toNat < 0x800
    · rw [if_pos h2]
      show utf8DecodeOne ((0xC0 + c.toNat / 64) :: (0x80 + c.toNat % 64) :: rest) =
        some (c, rest)
      simp only [utf8DecodeOne]
      rw [if_neg (by omega), if_neg (by omega), if_pos (by omega),
        if_pos ⟨by omega, by omega⟩]
      have hn : (0xC0 + c.toNat / 64 - 0xC0) * 64 + (0x80 + c.toNat % 64 - 0x80) =
          c.toNat := by omega
      simp only [hn]
      rw [if_pos (by omega), mkChar?_toNat]
      rfl
    · rw [if_neg h2]
      by_cases h3 : c.toNat < 0x10000
      · rw [if_pos h3]
        show utf8DecodeOne ((0xE0 + c.toNat / 4096) ::
          (0x80 + c.toNat / 64 % 64) :: (0x80 + c.toNat % 64) :: rest) = some (c, rest)
        simp only [utf8DecodeOne]
        rw [if_neg (by omega), if_neg (by omega), if_neg (by omega),
          if_pos (by omega), if_pos ⟨⟨by omega, by omega⟩, by omega, by omega⟩]
        have hn : (0xE0 + c.toNat / 4096 - 0xE0) * 4096 +
            (0x80 + c.toNat / 64 % 64 - 0x80) * 64 + (0x80 + c.toNat % 64 - 0x80) =
            c.toNat := by omega
        simp only [hn]
        rw [if_pos (by omega), mkChar?_toNat]
        rfl
      · rw [if_neg h3]
        have h4 : c.toNat < 0x110000 := by omega
        show utf8DecodeOne ((0xF0 + c.toNat / 262144) ::
          (0x80 + c.toNat / 4096 % 64) :: (0x80 + c.toNat / 64 % 64) ::
          (0x80 + c.toNat % 64) :: rest) = some (c, rest)
        simp only [utf8DecodeOne]
        rw [if_neg (by omega), if_neg (by omega), if_neg (by omega),
          if_neg (by omega), if_pos (by omega),
          if_pos ⟨⟨by omega, by omega⟩, ⟨by omega, by omega⟩, by omega, by omega⟩]
        have hn : (0xF0 + c.toNat / 262144 - 0xF0) * 262144 +
            (0x80 + c.toNat / 4096 % 64 - 0x80) * 4096 +
            (0x80 + c.toNat / 64 % 64 - 0x80) * 64 + (0x80 + c.toNat % 64 - 0x80) =
            c.toNat := by omega
        simp only [hn]
        rw [if_pos (by omega), mkChar?_toNat]
        rfl

/-- A character's UTF-8 encoding is never empty. -/
theorem utf8Char_ne_nil (c : Char) : utf8Char c ≠ [] := by
  simp only [utf8Char]
  split_ifs <;> simp

/-- A string has at least as many UTF-8 bytes as characters. -/
theorem length_le_utf8Encode : ∀ s : List Char, s.length ≤ (utf8Encode s).length := by
  intro s
  induction s with
  | nil => simp
  | cons c t ih =>
    show t.length + 1 ≤ (utf8Char c ++ utf8Encode t).length
    have hpos : 0 < (utf8Char c).length := List.length_pos.mpr (utf8Char_ne_nil c)
    simp only [List.length_append]
    omega

/-- With enough fuel, the UTF-8 decoding loop inverts the encoder. -/
theorem utf8DecodeAux_encode : ∀ (s : List Char) (fuel : Nat), s.length ≤ fuel →
    utf8DecodeAux fuel (utf8Encode s) = some s := by
  intro s
  induction s with
  | nil => intro fuel h; cases fuel <;> rfl
  | cons c t ih =>
    intro fuel h
    cases fuel with
    | zero => simp at h
    | succ f =>
      obtain ⟨b, l, hb⟩ : ∃ b l, utf8Char c = b :: l := by
        cases hc : utf8Char c with
        | nil => exact absurd hc (utf8Char_ne_nil c)
        | cons x xs => exact ⟨x, xs, rfl⟩
      show utf8DecodeAux (f + 1) (utf8Char c ++ utf8Encode t) = some (c :: t)
      rw [hb, List.cons_append]
      have hone : utf8DecodeOne (b :: (l ++ utf8Encode t)) = some (c, utf8Encode t) := by
        rw [← List.cons_append, ← hb]
        exact utf8DecodeOne_append c _
      simp only [utf8DecodeAux, hone]
      rw [ih f (by simpa using Nat.succ_le_succ_iff.mp h)]
      rfl

/-- `utf8Decode` inverts `utf8Encode`. -/
theorem utf8Decode_encode (s : List Char) : utf8Decode (utf8Encode s) = some s :=
  utf8DecodeAux_encode s _ (length_le_utf8Encode s)

/-- `hexVal` inverts `hexDigitChar` on digit values. -/
theorem hexVal_hexDigitChar (k : Nat) (hk : k < 16) :
    hexVal (hexDigitChar k) = some k := by
  interval_cases k <;> decide

/-- The string-body parser inverts serde_json's escaping, consuming exactly
through the closing quote. -/
theorem parseJString_escape : ∀ (s rest : List Char),
    parseJString (escapeString s ++ ('"' :: rest)) = some (s, rest) := by
  intro s
  induction s with
  | nil =>
    intro rest
    show parseJString ('"' :: rest) = some ([], rest)
    rw [parseJString.eq_def]
    simp only [reduceIte, Char.reduceEq, if_true, if_false]
  | cons c t ih =>
    intro rest
    show parseJString ((escapeChar c ++ escapeString t) ++ ('"' :: rest)) =
      some (c :: t, rest)
    rw [List.append_assoc]
    unfold escapeChar
    by_cases h1 : c = '"'
    · rw [if_pos h1]
      show parseJString ('\\' :: '"' :: (escapeString t ++ ('"' :: rest))) = _
      rw [parseJString.eq_def]
      simp only [reduceIte, Char.reduceEq, if_true, if_false]
      rw [ih rest]
      simp [h1]
    · rw [if_neg h1]
      by_cases h2 : c = '\\'
      · rw [if_pos h2]
        show parseJString ('\\' :: '\\' :: (escapeString t ++ ('"' :: rest))) = _
        rw [parseJString.eq_def]
        simp only [reduceIte, Char.reduceEq, if_true, if_false]
        rw [ih rest]
        simp [h2]
      · rw [if_neg h2]
        by_cases h3 : c = '\x08'
        · rw [if_pos h3]
          show parseJString ('\\' :: 'b' :: (escapeString t ++ ('"' :: rest))) = _
          rw [parseJString.eq_def]
          simp only [reduceIte, Char.reduceEq, if_true, if_false]
          rw [ih rest]
          simp [h3]
        · rw [if_neg h3]
          by_cases h4 : c = '\x09'
          · rw [if_pos h4]
            show parseJString ('\\' :: 't' :: (escapeString t ++ ('"' :: rest))) = _
            rw [parseJString.eq_def]
            simp only [reduceIte, Char.reduceEq, if_true, if_false]
            rw [ih rest]
            simp [h4]
          · rw [if_neg h4]
            by_cases h5 : c = '\x0a'
            · rw [if_pos h5]
              show parseJString ('\\' :: 'n' :: (escapeString t ++ ('"' :: rest))) = _
              rw [parseJString.eq_def]
              simp only [reduceIte, Char.reduceEq, if_true, if_false]
              rw [ih rest]
              simp [h5]
            · rw [if_neg h5]
              by_cases h6 : c = '\x0c'
              · rw [if_pos h6]
                show parseJString ('\\' :: 'f' :: (escapeString t ++ ('"' :: rest))) = _
                rw [parseJString.eq_def]
                simp only [reduceIte, Char.reduceEq, if_true, if_false]
                rw [ih rest]
                simp [h6]
              · rw [if_neg h6]
                by_cases h7 : c = '\x0d'
                · rw [if_pos h7]
                  show parseJString ('\\' :: 'r' :: (escapeString t ++ ('"' :: rest))) = _
                  rw [parseJString.eq_def]
                  simp only [reduceIte, Char.reduceEq, if_true, if_false]
                  rw [ih rest]
                  simp [h7]
                · rw [if_neg h7]
                  by_cases h8 : c.toNat < 0x20
                  · rw [if_pos h8]
                    show parseJString ('\\' :: 'u' :: '0' :: '0' ::
                      hexDigitChar (c.toNat / 16) :: hexDigitChar (c.toNat % 16) ::
                      (escapeString t ++ ('"' :: rest))) = _
                    rw [parseJString.eq_def]
                    simp only [reduceIte, Char.reduceEq, if_true, if_false]
                    rw [show hexVal '0' = some 0 from by decide,
                      hexVal_hexDigitChar (c.toNat / 16) (by omega),
                      hexVal_hexDigitChar (c.toNat % 16) (by omega)]
                    dsimp only
                    have hn : 0 * 4096 + 0 * 256 + c.toNat / 16 * 16 + c.toNat % 16 =
                        c.toNat := by omega
                    rw [hn, mkChar?_toNat, ih rest]
                    rfl
                  · rw [if_neg h8]
                    show parseJString (c :: (escapeString t ++ ('"' :: rest))) = _
                    rw [parseJString.eq_def]
                    dsimp only
                    rw [if_neg h1, if_neg h2, ih rest]
                    rfl

/-- A digit character is a digit. -/
theorem digitChar_isDigit (n : Nat) (h : n < 10) : (digitChar n).isDigit = true := by
  interval_cases n <;> decide

/-- A digit character's value. -/
theorem digitChar_val (n : Nat) (h : n < 10) : (digitChar n).toNat - 48 = n := by
  interval_cases n <;> decide

/-- Every character of a decimal rendering is a digit. -/
theorem natToCharsAux_digits : ∀ (fuel n : Nat), ∀ c ∈ natToCharsAux fuel n,
    c.isDigit = true := by
  intro fuel
  induction fuel with
  | zero => intro n c hc; cases hc
  | succ f ih =>
    intro n c hc
    by_cases h10 : n < 10
    · simp only [natToCharsAux, if_pos h10] at hc
      simp at hc
      rw [hc]
      exact digitChar_isDigit n h10
    · simp only [natToCharsAux, if_neg h10] at hc
      rw [List.mem_append] at hc
      cases hc with
      | inl h => exact ih (n / 10) c h
      | inr h =>
        simp at h
        rw [h]
        exact digitChar_isDigit (n % 10) (by omega)

/-- A decimal rendering with positive fuel is nonempty. -/
theorem natToCharsAux_ne_nil (f n : Nat) : natToCharsAux (f + 1) n ≠ [] := by
  simp only [natToCharsAux]
  split_ifs <;> simp

/-- Greedy digit parsing stops at a non-digit head. -/
theorem parseDigits_stop (rest : List Char) (acc : Nat)
    (hrest : rest.head?.all (fun c => !c.isDigit) = true) :
    parseDigits rest acc = (acc, rest) := by
  cases rest with
  | nil => rfl
  | cons c t =>
    simp at hrest
    simp only [parseDigits]
    rw [hrest]
    rfl

/-- Consuming a decimal rendering accumulates exactly its value. -/
theorem parseDigits_natToCharsAux : ∀ (fuel n acc : Nat) (rest : List Char),
    n < 10 ^ fuel →
    parseDigits (natToCharsAux fuel n ++ rest) acc =
      parseDigits rest (acc * 10 ^ (natToCharsAux fuel n).length + n) := by
  intro fuel
  induction fuel with
  | zero =>
    intro n acc rest h
    have hn : n = 0 := by simpa using h
    subst hn
    simp [natToCharsAux]
  | succ f ih =>
    intro n acc rest h
    by_cases h10 : n < 10
    · simp only [natToCharsAux, if_pos h10]
      show parseDigits (digitChar n :: rest) acc = _
      simp only [parseDigits]
      rw [digitChar_isDigit n h10]
      simp only [if_true, List.length_cons, List.length_nil]
      rw [digitChar_val n h10]
      norm_num
    · simp only [natToCharsAux, if_neg h10]
      rw [List.append_assoc]
      have hdiv : n / 10 < 10 ^ f := by
        rw [pow_succ] at h
        omega
      rw [ih (n / 10) acc _ hdiv]
      show parseDigits (digitChar (n % 10) :: rest) _ = _
      simp only [parseDigits]
      rw [digitChar_isDigit (n % 10) (by omega)]
      simp only [if_true]
      rw [digitChar_val (n % 10) (by omega)]
      have hlen : (natToCharsAux f (n / 10) ++ [digitChar (n % 10)]).length =
          (natToCharsAux f (n / 10)).length + 1 := by simp
      rw [hlen]
      congr 1
      have hsplit : n / 10 * 10 + n % 10 = n := by omega
      calc (acc * 10 ^ (natToCharsAux f (n / 10)).length + n / 10) * 10 + n % 10
          = acc * (10 ^ (natToCharsAux f (n / 10)).length * 10) +
            (n / 10 * 10 + n % 10) := by ring
        _ = acc * 10 ^ ((natToCharsAux f (n / 10)).length + 1) + n := by
            rw [hsplit, pow_succ]

/-- `parseNat` inverts the decimal rendering when no digit follows. -/
theorem parseNat_natToChars (n : Nat) (rest : List Char)
    (hrest : rest.head?.all (fun c => !c.isDigit) = true) :
    parseNat (natToChars n ++ rest) = some (n, rest) := by
  obtain ⟨b, l, hb⟩ : ∃ b l, natToChars n = b :: l := by
    cases hc : natToChars n with
    | nil => exact absurd hc (natToCharsAux_ne_nil n n)
    | cons x xs => exact ⟨x, xs, rfl⟩
  have hbd : b.isDigit = true :=
    natToCharsAux_digits (n + 1) n b (by rw [show natToCharsAux (n + 1) n = natToChars n from rfl, hb]; simp)
  rw [hb, List.cons_append]
  simp only [parseNat]
  rw [hbd]
  simp only [if_true]
  rw [← List.cons_append, ← hb]
  have hpow : n < 10 ^ (n + 1) :=
    lt_of_lt_of_le (Nat.lt_pow_self (by norm_num) n)
      (Nat.pow_le_pow_right (by norm_num) (Nat.le_succ n))
  rw [show natToChars n = natToCharsAux (n + 1) n from rfl,
    parseDigits_natToCharsAux (n + 1) n 0 rest hpow]
  rw [Nat.zero_mul, Nat.zero_add]
  rw [parseDigits_stop rest n hrest]

/-- `takeWhile`/`dropWhile` split an all-satisfying prefix off a tail whose
head fails the predicate. -/
theorem takeWhile_dropWhile_append (p : Char → Bool) :
    ∀ (l r : List Char), (∀ c ∈ l, p c = true) →
    (r.head?.all (fun c => !p c) = true) →
    (l ++ r).takeWhile p = l ∧ (l ++ r).dropWhile p = r := by
  intro l r hl hr
  induction l with
  | nil =>
    cases r with
    | nil => simp
    | cons c t =>
      simp at hr
      simp [List.takeWhile_cons, List.dropWhile_cons, hr]
  | cons c t ih =>
    have hc : p c = true := hl c (by simp)
    have iht := ih (fun x hx => hl x (by simp [hx]))
    simp [List.takeWhile_cons, List.dropWhile_cons, hc, iht.1, iht.2]

/-- `parseToken` inverts a well-formed token rendering when no token
character follows. -/
theorem parseToken_append (tok rest : List Char)
    (hwf : tokenWF tok = true)
    (hrest : rest.head?.all (fun c => !isTokenChar c) = true) :
    parseToken (tok ++ rest) = some (tok, rest) := by
  simp only [tokenWF, Bool.and_eq_true, List.all_eq_true] at hwf
  obtain ⟨hne, hall⟩ := hwf
  obtain ⟨htake, hdrop⟩ := takeWhile_dropWhile_append isTokenChar tok rest hall hrest
  simp only [parseToken, htake, hdrop]
  rw [if_neg (by simpa using hne)]

/-- `expectL` strips an exact literal prefix. -/
theorem expectL_append : ∀ (pat s : List Char), expectL pat (pat ++ s) = some s := by
  intro pat
  induction pat with
  | nil => intro s; rfl
  | cons p ps ih =>
    intro s
    show expectL (p :: ps) (p :: (ps ++ s)) = some s
    simp only [expectL, eq_self_iff_true, if_true]
    exact ih s

/-- The disk-object parser inverts the disk-object renderer. -/
theorem parseDisk_render (d : DiskReport) (rest : List Char) :
    parseDisk (renderDisk d ++ rest) = some (d, rest) := by
  have h1 : renderDisk d ++ rest =
      lit "\x7b\"name\":\"" ++ (escapeString d.name ++ ('"' ::
        (lit ",\"diskUsed\":" ++ (natToChars d.disk_used ++
        (lit ",\"diskCapacity\":" ++ (natToChars d.disk_capacity ++
        (lit "\x7d" ++ rest))))))) := by
    simp only [renderDisk, renderJString, List.append_assoc, List.cons_append,
      List.singleton_append]
    rfl
  rw [h1]
  unfold parseDisk
  rw [expectL_append]
  simp only [Option.bind_eq_bind, Option.some_bind]
  rw [parseJString_escape]
  simp only [Option.bind_eq_bind, Option.some_bind]
  rw [expectL_append]
  simp only [Option.bind_eq_bind, Option.some_bind]
  rw [parseNat_natToChars _ _ (by rfl)]
  simp only [Option.bind_eq_bind, Option.some_bind]
  rw [expectL_append]
  simp only [Option.bind_eq_bind, Option.some_bind]
  rw [parseNat_natToChars _ _ (by rfl)]
  simp only [Option.bind_eq_bind, Option.some_bind]
  rw [expectL_append]
  simp only [Option.bind_eq_bind, Option.some_bind]

/-- The cpu-object parser inverts the cpu-object renderer when the usage
field is a well-formed number token. -/
theorem parseCPU_render (c : CPUReport) (rest : List Char)
    (hwf : tokenWF c.usage = true) :
    parseCPU (renderCPU c ++ rest) = some (c, rest) := by
  have h1 : renderCPU c ++ rest =
      lit "\x7b\"name\":\"" ++ (escapeString c.name ++ ('"' ::
        (lit ",\"brand\":\"" ++ (escapeString c.brand ++ ('"' ::
        (lit ",\"vendorId\":\"" ++ (escapeString c.vendor_id ++ ('"' ::
        (lit ",\"frequency\":" ++ (natToChars c.frequency ++
        (lit ",\"usage\":" ++ (c.usage ++
        (lit "\x7d" ++ rest))))))))))))) := by
    simp only [renderCPU, renderJString, List.append_assoc, List.cons_append,
      List.singleton_append]
    rfl
  rw [h1]
  unfold parseCPU
  rw [expectL_append]
  simp only [Option.bind_eq_bind, Option.some_bind]
  rw [parseJString_escape]
  simp only [Option.bind_eq_bind, Option.some_bind]
  rw [expectL_append]
  simp only [Option.bind_eq_bind, Option.some_bind]
  rw [parseJString_escape]
  simp only [Option.bind_eq_bind, Option.some_bind]
  rw [expectL_append]
  simp only [Option.bind_eq_bind, Option.some_bind]
  rw [parseJString_escape]
  simp only [Option.bind_eq_bind, Option.some_bind]
  rw [expectL_append]
  simp only [Option.bind_eq_bind, Option.some_bind]
  rw [parseNat_natToChars _ _ (by rfl)]
  simp only [Option.bind_eq_bind, Option.some_bind]
  rw [expectL_append]
  simp only [Option.bind_eq_bind, Option.some_bind]
  rw [parseToken_append _ _ hwf (by rfl)]
  simp only [Option.bind_eq_bind, Option.some_bind]
  rw [expectL_append]
  simp only [Option.bind_eq_bind, Option.some_bind]

/-- The memory-object parser inverts the memory-object renderer. -/
theorem parseMemory_render (m : MemoryReport) (rest : List Char) :
    parseMemory (renderMemory m ++ rest) = some (m, rest) := by
  have h1 : renderMemory m ++ rest =
      lit "\x7b\"memoryUsed\":" ++ (natToChars m.memory_used ++
        (lit ",\"memoryCapacity\":" ++ (natToChars m.memory_capacity ++
        (lit "\x7d" ++ rest)))) := by
    simp only [renderMemory, List.append_assoc]
  rw [h1]
  unfold parseMemory
  rw [expectL_append]
  simp only [Option.bind_eq_bind, Option.some_bind]
  rw [parseNat_natToChars _ _ (by rfl)]
  simp only [Option.bind_eq_bind, Option.some_bind]
  rw [expectL_append]
  simp only [Option.bind_eq_bind, Option.some_bind]
  rw [parseNat_natToChars _ _ (by rfl)]
  simp only [Option.bind_eq_bind, Option.some_bind]
  rw [expectL_append]
  simp only [Option.bind_eq_bind, Option.some_bind]

/-- A separated rendering has at least one character per element when every
element's rendering is nonempty. -/
theorem length_le_renderSep (f : α → List Char) :
    ∀ l : List α, (∀ x ∈ l, f x ≠ []) → l.length ≤ (renderSep f l).length := by
  intro l
  induction l with
  | nil => intro _; simp [renderSep]
  | cons x xs ih =>
    intro h
    cases xs with
    | nil =>
      show 1 ≤ (f x).length
      simpa using List.length_pos.mpr (h x (by simp))
    | cons y ys =>
      show (y :: ys).length + 1 ≤ (f x ++ (',' :: renderSep f (y :: ys))).length
      have h1 : 0 < (f x).length := List.length_pos.mpr (h x (by simp))
      have h2 := ih (fun z hz => h z (by simp [hz]))
      simp only [List.length_append, List.length_cons] at *
      omega

/-- The list-tail parser inverts the separated rendering followed by the
closing bracket, given enough fuel and a correct element parser. -/
theorem parseListRest_renderSep (pf : List Char → Option (α × List Char))
    (f : α → List Char) :
    ∀ (l : List α) (fuel : Nat) (rest : List Char), l ≠ [] → l.length ≤ fuel →
      (∀ x ∈ l, ∀ r, pf (f x ++ r) = some (x, r)) →
      parseListRest pf fuel (renderSep f l ++ (']' :: rest)) = some (l, rest) := by
  intro l
  induction l with
  | nil => intro fuel rest h; exact absurd rfl h
  | cons x xs ih =>
    intro fuel rest _ hlen hpf
    cases fuel with
    | zero => simp at hlen
    | succ fl =>
      cases xs with
      | nil =>
        show parseListRest pf (fl + 1) (f x ++ (']' :: rest)) = some ([x], rest)
        simp only [parseListRest]
        rw [hpf x (by simp) (']' :: rest)]
        rfl
      | cons y ys =>
        show parseListRest pf (fl + 1)
          ((f x ++ (',' :: renderSep f (y :: ys))) ++ (']' :: rest)) = _
        rw [List.append_assoc, List.cons_append]
        simp only [parseListRest]
        rw [hpf x (by simp) _]
        show Option.map (fun r => (x :: r.1, r.2))
          (parseListRest pf fl (renderSep f (y :: ys) ++ (']' :: rest))) = _
        rw [ih fl rest (by simp) (by simpa using Nat.succ_le_succ_iff.mp hlen)
          (fun z hz r => hpf z (by simp [hz]) r)]
        rfl

/-- The array parser inverts the array renderer, for element renderings that
start with an opening brace. -/
theorem parseJList_renderJList (pf : List Char → Option (α × List Char))
    (f : α → List Char) (l : List α) (rest : List Char)
    (hpf : ∀ x ∈ l, ∀ r, pf (f x ++ r) = some (x, r))
    (hhead : ∀ x ∈ l, (f x).head? = some '\x7b') :
    parseJList pf (renderJList f l ++ rest) = some (l, rest) := by
  cases l with
  | nil => rfl
  | cons x xs =>
    obtain ⟨t, hfx⟩ : ∃ t, f x = '\x7b' :: t := by
      cases hfc : f x with
      | nil =>
        have := hhead x (by simp)
        rw [hfc] at this
        simp at this
      | cons a as =>
        have := hhead x (by simp)
        rw [hfc] at this
        simp at this
        exact ⟨as, by rw [this]⟩
    have hshape : renderJList f (x :: xs) ++ rest =
        '[' :: (renderSep f (x :: xs) ++ (']' :: rest)) := by
      simp [renderJList, List.append_assoc]
    rw [hshape]
    obtain ⟨Q, hQ⟩ : ∃ Q, renderSep f (x :: xs) ++ (']' :: rest) = '\x7b' :: Q := by
      cases xs with
      | nil =>
        refine ⟨t ++ (']' :: rest), ?_⟩
        show f x ++ (']' :: rest) = '\x7b' :: (t ++ (']' :: rest))
        rw [hfx]
        rfl
      | cons y ys =>
        refine ⟨t ++ ((',' :: renderSep f (y :: ys)) ++ (']' :: rest)), ?_⟩
        show (f x ++ (',' :: renderSep f (y :: ys))) ++ (']' :: rest) =
          '\x7b' :: (t ++ ((',' :: renderSep f (y :: ys)) ++ (']' :: rest)))
        rw [hfx]
        simp [List.append_assoc]
    rw [hQ]
    simp only [parseJList]
    rw [if_neg (by decide)]
    rw [show ('\x7b' :: Q) = renderSep f (x :: xs) ++ (']' :: rest) from hQ.symm]
    have hlenQ : (renderSep f (x :: xs)).length + rest.length + 1 = Q.length + 1 := by
      have := congrArg List.length hQ
      simp [List.length_append] at this
      omega
    refine parseListRest_renderSep pf f (x :: xs) (Q.length + 2) rest (by simp) ?_ hpf
    have hfne : ∀ z ∈ x :: xs, f z ≠ [] := by
      intro z hz hnil
      have := hhead z hz
      rw [hnil] at this
      simp at this
    have := length_le_renderSep f (x :: xs) hfne
    omega

/-- The report parser inverts the report renderer when every cpu's usage
field is a well-formed number token. -/
theorem parseReport_render (r : SystemReport) (rest : List Char)
    (hwf : ∀ c ∈ r.cpus, tokenWF c.usage = true) :
    parseReport (renderReport r ++ rest) = some (r, rest) := by
  have h1 : renderReport r ++ rest =
      lit "\x7b\"disks\":" ++ (renderJList renderDisk r.disks ++
      (lit ",\"cpus\":" ++ (renderJList renderCPU r.cpus ++
      (lit ",\"memory\":" ++ (renderMemory r.memory ++
      (lit "\x7d" ++ rest)))))) := by
    simp only [renderReport, List.append_assoc]
  rw [h1]
  unfold parseReport
  rw [expectL_append]
  simp only [Option.bind_eq_bind, Option.some_bind]
  rw [parseJList_renderJList parseDisk renderDisk r.disks _
    (fun x _ rr => parseDisk_render x rr) (fun x _ => rfl)]
  simp only [Option.bind_eq_bind, Option.some_bind]
  rw [expectL_append]
  simp only [Option.bind_eq_bind, Option.some_bind]
  rw [parseJList_renderJList parseCPU renderCPU r.cpus _
    (fun x hx rr => parseCPU_render x rr (hwf x hx)) (fun x _ => rfl)]
  simp only [Option.bind_eq_bind, Option.some_bind]
  rw [expectL_append]
  simp only [Option.bind_eq_bind, Option.some_bind]
  rw [parseMemory_render]
  simp only [Option.bind_eq_bind, Option.some_bind]
  rw [expectL_append]
  simp only [Option.bind_eq_bind, Option.some_bind]

/-- The envelope parser inverts the canonical serialization of a well-formed
envelope. -/
theorem parseMessage_render (m : ReportMessage) (rest : List Char)
    (hwf : ∀ c ∈ m.report.cpus, tokenWF c.usage = true) :
    parseMessage (to_json_string m ++ rest) = some (m, rest) := by
  have h1 : to_json_string m ++ rest =
      lit "\x7b\"deviceId\":\"" ++ (escapeString m.device_id ++ ('"' ::
        (lit ",\"messageId\":\"" ++ (escapeString m.message_id ++ ('"' ::
        (lit ",\"timestamp\":" ++ (natToChars m.timestamp ++
        (lit ",\"report\":" ++ (renderReport m.report ++
        (lit "\x7d" ++ rest)))))))))) := by
    simp only [to_json_string, renderJString, List.append_assoc, List.cons_append,
      List.singleton_append]
    rfl
  rw [h1]
  unfold parseMessage
  rw [expectL_append]
  simp only [Option.bind_eq_bind, Option.some_bind]
  rw [parseJString_escape]
  simp only [Option.bind_eq_bind, Option.some_bind]
  rw [expectL_append]
  simp only [Option.bind_eq_bind, Option.some_bind]
  rw [parseJString_escape]
  simp only [Option.bind_eq_bind, Option.some_bind]
  rw [expectL_append]
  simp only [Option.bind_eq_bind, Option.some_bind]
  rw [parseNat_natToChars _ _ (by rfl)]
  simp only [Option.bind_eq_bind, Option.some_bind]
  rw [expectL_append]
  simp only [Option.bind_eq_bind, Option.some_bind]
  rw [parseReport_render m.report _ hwf]
  simp only [Option.bind_eq_bind, Option.some_bind]
  rw [expectL_append]
  simp only [Option.bind_eq_bind, Option.some_bind]

/-- A run is never longer than the list. -/
theorem countRun_le (b : Nat) : ∀ t : List Nat, countRun b t ≤ t.length := by
  intro t
  induction t with
  | nil => simp [countRun]
  | cons x t' ih =>
    simp only [countRun, List.length_cons]
    split_ifs <;> omega

/-- Putting back `k` copies of the run byte undoes dropping them. -/
theorem replicate_append_drop (b : Nat) :
    ∀ (k : Nat) (t : List Nat), k ≤ countRun b t →
      List.replicate k b ++ t.drop k = t := by
  intro k
  induction k with
  | zero => intro t _; simp
  | succ j ih =>
    intro t h
    cases t with
    | nil => simp [countRun] at h
    | cons x t' =>
      have hx : x = b := by
        by_contra hne
        simp [countRun, hne] at h
      subst hx
      have h' : j ≤ countRun x t' := by
        simp [countRun] at h
        omega
      rw [List.replicate_succ, List.cons_append, List.drop_succ_cons, ih t' h']

/-- Run-length decompression inverts the fueled compressor. -/
theorem rleDecompress_compressAux : ∀ (fuel : Nat) (l : List Nat),
    l.length ≤ fuel → rleDecompress (rleCompressAux fuel l) = some l := by
  intro fuel
  induction fuel with
  | zero =>
    intro l h
    have : l = [] := List.length_eq_zero.mp (by omega)
    subst this
    rfl
  | succ f ih =>
    intro l h
    cases l with
    | nil => rfl
    | cons b t =>
      show rleDecompress (min (countRun b t) 254 :: b ::
        rleCompressAux f (t.drop (min (countRun b t) 254))) = some (b :: t)
      simp only [rleDecompress]
      rw [ih (t.drop (min (countRun b t) 254)) (by simp [List.length_drop]; simp at h; omega)]
      rw [Option.map_some']
      rw [List.replicate_succ, List.cons_append,
        replicate_append_drop b (min (countRun b t) 254) t (Nat.min_le_left _ _)]

/-- Run-length decompression inverts run-length compression. -/
theorem rleDecompress_rleCompress (l : List Nat) :
    rleDecompress (rleCompress l) = some l :=
  rleDecompress_compressAux l.length l le_rfl

/-- The size-checked decompression inverts the length-prefixed compression
for payloads whose length fits the 4-byte prefix. -/
theorem decompress_compress (bs : List Nat) (h : bs.length < 2 ^ 32) :
    decompress_size_prepended (compress_prepend_size bs) = some bs := by
  show decompress_size_prepended (bs.length % 256 :: bs.length / 256 % 256 ::
    bs.length / 65536 % 256 :: bs.length / 16777216 % 256 :: rleCompress bs) = some bs
  simp only [decompress_size_prepended]
  rw [rleDecompress_rleCompress]
  dsimp only
  have h32 : bs.length < 4294967296 := by omega
  rw [if_pos (by omega)]

/-- Decompressing a strict even-boundary prefix of a compressed block can
only produce a strictly shorter payload. -/
theorem rleDecompress_take_shorter : ∀ (fuel : Nat) (l : List Nat) (j : Nat) (p : List Nat),
    l.length ≤ fuel → j < (rleCompressAux fuel l).length →
    rleDecompress ((rleCompressAux fuel l).take j) = some p → p.length < l.length := by
  intro fuel
  induction fuel with
  | zero =>
    intro l j p hl hj
    have : l = [] := List.length_eq_zero.mp (by omega)
    subst this
    simp [rleCompressAux] at hj
  | succ f ih =>
    intro l j p hl hj hd
    cases l with
    | nil => simp [rleCompressAux] at hj
    | cons b t =>
      have haux : rleCompressAux (f + 1) (b :: t) = min (countRun b t) 254 :: b ::
          rleCompressAux f (t.drop (min (countRun b t) 254)) := rfl
      rw [haux] at hj hd
      match j with
      | 0 =>
        simp only [List.take_zero, rleDecompress] at hd
        injection hd with hd
        rw [← hd]
        simp
      | 1 =>
        simp [rleDecompress] at hd
      | (jj + 2) =>
        rw [List.take_succ_cons, List.take_succ_cons] at hd
        simp only [rleDecompress] at hd
        cases hdd : rleDecompress ((rleCompressAux f
            (t.drop (min (countRun b t) 254))).take jj) with
        | none => rw [hdd] at hd; simp at hd
        | some p' =>
          rw [hdd] at hd
          simp at hd
          have hjj : jj < (rleCompressAux f (t.drop (min (countRun b t) 254))).length := by
            simp at hj
            omega
          have hp' := ih (t.drop (min (countRun b t) 254)) jj p'
            (by simp [List.length_drop]; simp at hl; omega) hjj hdd
          have hnle : min (countRun b t) 254 ≤ t.length :=
            le_trans (Nat.min_le_left _ _) (countRun_le b t)
          rw [← hd]
          simp only [List.length_append, List.length_replicate, List.length_cons]
          rw [List.length_drop] at hp'
          omega

/-- Byte sequences shorter than the length prefix are rejected. -/
theorem decompress_short (l : List Nat) (h : l.length < 4) :
    decompress_size_prepended l = none := by
  match l with
  | [] => rfl
  | [_] => rfl
  | [_, _] => rfl
  | [_, _, _] => rfl
  | _ :: _ :: _ :: _ :: _ => simp at h; omega

/-- Reading the 4-byte length prefix off a compressed block. -/
theorem decompress_len_prefix (L : Nat) (D : List Nat) :
    decompress_size_prepended (toLE4 L ++ D) =
      match rleDecompress D with
      | none => none
      | some payload =>
        if payload.length = L % 256 + L / 256 % 256 * 256 +
            L / 65536 % 256 * 65536 + L / 16777216 % 256 * 16777216
        then some payload else none := rfl

set_option maxRecDepth 400000 in
/-- C4: `decode` (modelled from the spec, as no decoder exists in `src/`) is
the exact inverse of the `execute_check` payload encoding — serialization,
UTF-8, length-prefixed block compression — for every envelope whose usage
tokens are well formed and whose byte length fits the 4-byte prefix; and
decoding fails (deterministically — `decode` is a pure function) on every
strict truncation of an encoding, as well as on a concrete length-tampered
encoding, rather than silently returning malformed data. -/
theorem C4_decode_encode_roundtrip (m : ReportMessage)
    (hwf : messageWF m = true)
    (hlen : (utf8Encode (to_json_string m)).length < 2 ^ 32) :
    decode (encode m) = some m ∧
    (∀ k, k < (encode m).length → decode ((encode m).take k) = none) ∧
    decode tamperedSample = none := by
  have hwf' : ∀ c ∈ m.report.cpus, tokenWF c.usage = true := by
    simpa [messageWF, List.all_eq_true] using hwf
  refine ⟨?_, ?_, ?_⟩
  · unfold decode encode
    rw [decompress_compress _ hlen]
    dsimp only
    rw [utf8Decode_encode]
    dsimp only
    have hp := parseMessage_render m [] hwf'
    rw [List.append_nil] at hp
    rw [hp]
    rfl
  · intro k hk
    by_cases h4 : k < 4
    · have hshort : ((encode m).take k).length < 4 := by
        simp only [List.length_take]
        omega
      unfold decode
      rw [decompress_short _ hshort]
    · have henc : (encode m).length =
          4 + (rleCompress (utf8Encode (to_json_string m))).length := by
        simp [encode, compress_prepend_size, toLE4, List.length_append]
        omega
      have hsplit : (encode m).take k =
          toLE4 (utf8Encode (to_json_string m)).length ++
          (rleCompress (utf8Encode (to_json_string m))).take (k - 4) := by
        show (toLE4 (utf8Encode (to_json_string m)).length ++
          rleCompress (utf8Encode (to_json_string m))).take k = _
        rw [List.take_append_eq_append_take]
        rw [List.take_of_length_le (by simp [toLE4]; omega)]
        rw [show (toLE4 (utf8Encode (to_json_string m)).length).length = 4 from rfl]
      unfold decode
      rw [hsplit, decompress_len_prefix]
      cases hdd : rleDecompress
          ((rleCompress (utf8Encode (to_json_string m))).take (k - 4)) with
      | none => rfl
      | some p =>
        have hplen : p.length < (utf8Encode (to_json_string m)).length := by
          refine rleDecompress_take_shorter (utf8Encode (to_json_string m)).length
            (utf8Encode (to_json_string m)) (k - 4) p le_rfl ?_ hdd
          have hrw : (rleCompressAux (utf8Encode (to_json_string m)).length
              (utf8Encode (to_json_string m))).length =
              (rleCompress (utf8Encode (to_json_string m))).length := rfl
          rw [hrw]
          omega
        dsimp only
        rw [if_neg (by omega)]
  · decide

set_option maxRecDepth 400000 in
/-- C4 witness: the round-trip, truncation-failure and tamper-failure
statement at the concrete sample envelope. -/
theorem C4_witness :
    decode (encode sampleMessage) = some sampleMessage ∧
    (∀ k, k < (encode sampleMessage).length →
      decode ((encode sampleMessage).take k) = none) ∧
    decode tamperedSample = none :=
  C4_decode_encode_roundtrip sampleMessage (by decide) (by decide)

end DeviceStats
